import Mathlib

/-!
Shallow embedding of the `github-actions-analyze-dart` action (src/index.js).

The action has three parts:
* `analyze`  — runs `dart analyze --format machine .`, parses the pipe-delimited
  output lines into findings and per-severity counts;
* `format`   — runs `dart format --output=none .`, counts the reported changed
  files (lines ending in `.dart`) as style warnings;
* `run`      — combines the four counts with the `fail-on-infos` /
  `fail-on-warnings` inputs into a pass/fail decision and a summary message.

JavaScript string builtins used by the source (`split`, `includes`, `replace`,
`toLowerCase`, `substring`, `endsWith`, `trim`, template-literal coercion of
`undefined`, `parseInt`) are modelled below as executable Lean functions on
`String`/`List Char`.
-/

namespace AnalyzeDart

/-- Model of JavaScript `String.prototype.includes(c)` for a one-character
needle, as used by `line.includes('|')`. -/
def jsIncludesChar (s : String) (c : Char) : Bool :=
  s.data.contains c

/-- Splitting a character list at every occurrence of the separator character.
Always returns at least one (possibly empty) part. -/
def splitCharList (sep : Char) : List Char → List (List Char)
  | [] => [[]]
  | a :: as =>
    match splitCharList sep as with
    | [] => if a = sep then [[], []] else [[a]]
    | h :: t => if a = sep then [] :: h :: t else (a :: h) :: t

/-- Model of JavaScript `String.prototype.split(sep)` for a one-character
separator, as used by `line.split('|')` and the line split. -/
def jsSplitChar (s : String) (sep : Char) : List String :=
  (splitCharList sep s.data).map fun l => ⟨l⟩

/-- Model of JavaScript `String.prototype.toLowerCase()` (ASCII letters, which
is all the analyzer's rule identifiers use). -/
def jsToLowerCase (s : String) : String :=
  ⟨s.data.map Char.toLower⟩

/-- Remove the first occurrence of `pat` from the list (identity if `pat` does
not occur). -/
def removeFirstOcc (pat : List Char) : List Char → List Char
  | [] => []
  | a :: as =>
    if (a :: as).take pat.length = pat then (a :: as).drop pat.length
    else a :: removeFirstOcc pat as

/-- Model of JavaScript `s.replace(pat, '')` for a plain-string pattern: only
the first occurrence is removed. -/
def jsReplaceEmpty (s pat : String) : String :=
  ⟨removeFirstOcc pat.data s.data⟩

/-- Does `pat` occur as a contiguous sublist? -/
def occursInList (pat : List Char) : List Char → Bool
  | [] => pat.isEmpty
  | a :: as => ((a :: as).take pat.length = pat : Bool) || occursInList pat as

/-- Does the string `pat` occur as a substring of `s`? -/
def strOccurs (s pat : String) : Bool :=
  occursInList pat.data s.data

/-- Model of JavaScript `String.prototype.substring(i)`, as used by
`line.substring(8)`: drops the first `i` characters, returning `""` when the
string is shorter than `i`. -/
def jsSubstringFrom (s : String) (i : Nat) : String :=
  ⟨s.data.drop i⟩

/-- Model of JavaScript `String.prototype.endsWith(post)`. -/
def jsEndsWith (s post : String) : Bool :=
  s.data.drop (s.data.length - post.data.length) = post.data

/-- Model of JavaScript `String.prototype.trim()` (both ends). -/
def jsTrim (s : String) : String :=
  ⟨((s.data.dropWhile Char.isWhitespace).reverse.dropWhile Char.isWhitespace).reverse⟩

/-- Strip one trailing carriage return, as the `/\r?\n/` line separator does
with the part before each newline. -/
def dropTrailingCR (s : String) : String :=
  if jsEndsWith s "\r" then ⟨s.data.dropLast⟩ else s

/-- Remove the carriage return before each split point: every piece but the
last was followed by a `'\n'` in the original string. -/
def dropCRBeforeNewlines : List String → List String
  | [] => []
  | [p] => [p]
  | p :: ps => dropTrailingCR p :: dropCRBeforeNewlines ps

/-- Model of `output.trim().split(/\r?\n/)` (without the trim): split on `'\n'`
and remove at most one `'\r'` immediately preceding each newline. -/
def splitJsLines (s : String) : List String :=
  dropCRBeforeNewlines (jsSplitChar s '\n')

/-- Model of JavaScript `parseInt` on a possibly-`undefined` argument (`none`
stands for `undefined`, and a `none` result stands for `NaN`): the analyzer's
line/column fields are plain digit runs, which is the only shape the source
feeds it. -/
def jsParseInt : Option String → Option Nat
  | none => none
  | some s =>
    let ds := s.data.takeWhile Char.isDigit
    if ds.isEmpty then none
    else some (ds.foldl (fun n c => 10 * n + (c.toNat - 48)) 0)

/-- Coercion a JavaScript template literal applies to a possibly-`undefined`
string, as in `` `${lintMessage} ...` ``. -/
def jsTemplateStr : Option String → String
  | none => "undefined"
  | some s => s

/-- Model of JavaScript array indexing `arr[i]` (`none` stands for
`undefined` when the index is out of range). -/
def listAt {α : Type} : List α → Nat → Option α
  | [], _ => none
  | a :: _, 0 => some a
  | _ :: as, n + 1 => listAt as n

/-- A JavaScript runtime exception (the only kind this code can raise while
parsing is a `TypeError` from reading a property of `undefined`). -/
inductive JsError where
  | typeError (msg : String)
deriving Repr, DecidableEq

/-- The annotation channel used for a finding (`core.error` / `core.warning` /
`core.notice`). -/
inductive Channel where
  | error
  | warning
  | notice
deriving Repr, DecidableEq, BEq

/-- The data of one emitted analysis annotation. -/
structure Finding where
  file : String
  message : String
  startLine : Option Nat
  startColumn : Option Nat
deriving Repr, DecidableEq

/-- The three severity counters accumulated by `analyze`. -/
structure Counts where
  errorCount : Nat
  warningCount : Nat
  infoCount : Nat
deriving Repr, DecidableEq

/-- The severity classification of a split line, from
`lineData[0] === 'ERROR' / 'WARNING' / else`. -/
def lineChannel (lineData : List String) : Channel :=
  if listAt lineData 0 = some "ERROR" then .error
  else if listAt lineData 0 = some "WARNING" then .warning
  else .notice

/-- The documentation URL chosen for a rule identifier:
`lint === lint.toLowerCase() ? linter-lints URL : diagnostic-messages URL`. -/
def ruleUrl (lint : String) : String :=
  if lint = jsToLowerCase lint then
    "https://dart-lang.github.io/linter/lints/" ++ lint ++ ".html"
  else
    "https://dart.dev/tools/diagnostic-messages#" ++ jsToLowerCase lint

/-- The body of the `analyze` loop after `const lineData = line.split('|')`:
builds the finding exactly as the source does, raising the `TypeError` the
JavaScript would raise when `lineData[2]` or `lineData[3]` is `undefined`. -/
def processFields (workingDirectory : String) (lineData : List String) :
    Except JsError (Channel × Finding) :=
  match listAt lineData 2 with
  | none => .error (.typeError "Cannot read properties of undefined (reading toLowerCase)")
  | some lint =>
    match listAt lineData 3 with
    | none => .error (.typeError "Cannot read properties of undefined (reading replace)")
    | some rawFile =>
      let file := jsReplaceEmpty rawFile workingDirectory
      let annotLine := listAt lineData 4
      let annotColumn := listAt lineData 5
      let lintMessage := listAt lineData 7
      let message := jsTemplateStr lintMessage ++ " For more details, see " ++ ruleUrl lint
      .ok (lineChannel lineData,
        { file := file
          message := message
          startLine := jsParseInt annotLine
          startColumn := jsParseInt annotColumn })

/-- Increment the counter selected by the annotation channel. -/
def Counts.bump (c : Counts) : Channel → Counts
  | .error => { c with errorCount := c.errorCount + 1 }
  | .warning => { c with warningCount := c.warningCount + 1 }
  | .notice => { c with infoCount := c.infoCount + 1 }

/-- The `for (const line of lines)` loop of `analyze`: lines without the `'|'`
delimiter are skipped, every other line is parsed and bumps exactly one
counter; an exception aborts the loop. -/
def analyzeLoop (workingDirectory : String) : List String → Counts → Except JsError Counts
  | [], acc => .ok acc
  | l :: ls, acc =>
    if jsIncludesChar l '|' then
      match processFields workingDirectory (jsSplitChar l '|') with
      | .error e => .error e
      | .ok (ch, _) => analyzeLoop workingDirectory ls (acc.bump ch)
    else
      analyzeLoop workingDirectory ls acc

/-- The parsing part of `analyze`: counts over the trimmed, line-split tool
output. -/
def analyze (workingDirectory output : String) : Except JsError Counts :=
  analyzeLoop workingDirectory (splitJsLines (jsTrim output)) ⟨0, 0, 0⟩

/-- `core.getInput(...) === 'true'` — how both fail-policy flags are read. -/
def boolInput (s : String) : Bool :=
  s == "true"

/-- The decision stage of `run`: the summary message and the branch between
`core.setFailed(message)` (`true`) and `console.log(message)` (`false`). -/
def runDecision (errorCount warningCount infoCount styleWarningCount : Nat)
    (failOnInfos failOnWarnings : Bool) : Bool × String :=
  let issueCount := errorCount + warningCount + infoCount + styleWarningCount
  let message := toString issueCount ++ " issue" ++ (if issueCount = 1 then "" else "s") ++ " found."
  if errorCount > 0 || ((failOnInfos || failOnWarnings) && issueCount > 0) then
    (true, message)
  else
    (false, message)

/-- Is this the error channel? -/
def Channel.isError : Channel → Bool
  | .error => true
  | .warning => false
  | .notice => false

/-- Is this the warning channel? -/
def Channel.isWarning : Channel → Bool
  | .error => false
  | .warning => true
  | .notice => false

/-- Is this the notice (info) channel? -/
def Channel.isNotice : Channel → Bool
  | .error => false
  | .warning => false
  | .notice => true

/-- A data line: one the `analyze` loop does not skip, because it contains the
`'|'` delimiter. -/
def isDataLine (l : String) : Bool :=
  jsIncludesChar l '|'

/-- A data line whose severity field classifies it to the error channel. -/
def isErrorLine (l : String) : Bool :=
  jsIncludesChar l '|' && (lineChannel (jsSplitChar l '|')).isError

/-- A data line whose severity field classifies it to the warning channel. -/
def isWarningLine (l : String) : Bool :=
  jsIncludesChar l '|' && (lineChannel (jsSplitChar l '|')).isWarning

/-- A data line whose severity field classifies it to the info channel. -/
def isInfoLine (l : String) : Bool :=
  jsIncludesChar l '|' && (lineChannel (jsSplitChar l '|')).isNotice

/-- The `for (const line of lines)` loop of `format`: every line ending in
`.dart` has its first 8 characters removed (`line.substring(8)`, the width of
the formatter's `"Changed "` label), is recorded in `filesWithStyleIssues`,
and bumps `warningCount`. Returns the final `(warningCount,
filesWithStyleIssues)`. -/
def formatScan : List String → Nat × List String
  | [] => (0, [])
  | l :: ls =>
    let r := formatScan ls
    if jsEndsWith l ".dart" then (r.1 + 1, jsSubstringFrom l 8 :: r.2) else r

/-- The parsing part of `format`: the style-warning count and file list over
the trimmed, line-split formatter output. -/
def format (output : String) : Nat × List String :=
  formatScan (splitJsLines (jsTrim output))

/-! ## Decision stage -/

/-- The failure branch of `runDecision`, as a Boolean expression. -/
lemma runDecision_fst (e w i s : Nat) (fi fw : Bool) :
    (runDecision e w i s fi fw).1 =
      (decide (0 < e) || ((fi || fw) && decide (0 < e + w + i + s))) := by
  simp only [runDecision]
  split <;> rename_i h <;> simp_all [gt_iff_lt]

/-- The summary message of `runDecision`, identical on both branches. -/
lemma runDecision_snd (e w i s : Nat) (fi fw : Bool) :
    (runDecision e w i s fi fw).2 =
      toString (e + w + i + s) ++ " issue" ++
        (if e + w + i + s = 1 then "" else "s") ++ " found." := by
  simp only [runDecision]
  split <;> rfl

/-- C1: the decision stage fails the run if and only if `errorCount > 0`, or
(`failOnInfos` is enabled or `failOnWarnings` is enabled) and the total issue
count `errorCount + warningCount + infoCount + styleWarningCount` is greater
than `0` — for every combination of the four counts and the two policy
flags. -/
theorem run_fail_iff (e w i s : Nat) (fi fw : Bool) :
    (runDecision e w i s fi fw).1 = true ↔
      0 < e ∨ ((fi = true ∨ fw = true) ∧ 0 < e + w + i + s) := by
  rw [runDecision_fst]
  simp [Bool.or_eq_true, Bool.and_eq_true, decide_eq_true_eq]

/-- Witness for C1 at a concrete input: one error and no enabled flag fails
the run. -/
theorem run_fail_iff_witness :
    (runDecision 1 0 0 0 false false).1 = true ↔
      0 < 1 ∨ ((false = true ∨ false = true) ∧ 0 < 1 + 0 + 0 + 0) :=
  run_fail_iff 1 0 0 0 false false

/-- C4: for every four counts the summary message equals `"<N> issue found."`
when `N = 1` and `"<N> issues found."` otherwise, where `N` is the sum of the
four counts; the message is read off the second component, which both the
success and the failure branch of `runDecision` share. -/
theorem summary_message_shape (e w i s : Nat) (fi fw : Bool) :
    (runDecision e w i s fi fw).2 =
      (if e + w + i + s = 1 then "1 issue found."
       else toString (e + w + i + s) ++ " issues found.") := by
  rw [runDecision_snd]
  by_cases h : e + w + i + s = 1
  · rw [if_pos h, if_pos h, h]
    rfl
  · rw [if_neg h, if_neg h]
    rw [String.append_assoc, String.append_assoc]
    rfl

/-- C8: each fail-policy flag is enabled exactly when its input string equals
`"true"`; `"True"`, `"TRUE"`, `"1"` and `""` all leave it disabled. -/
theorem fail_flag_strict (s : String) :
    (boolInput s = true ↔ s = "true") ∧
      boolInput "True" = false ∧ boolInput "TRUE" = false ∧
      boolInput "1" = false ∧ boolInput "" = false :=
  ⟨by simp [boolInput], by decide, by decide, by decide, by decide⟩

/-- C9: the pass/fail decision is monotone in the four counts for every fixed
policy: a failing combination still fails after any pointwise increase. -/
theorem fail_monotone (e w i s e' w' i' s' : Nat) (fi fw : Bool)
    (hfail : (runDecision e w i s fi fw).1 = true)
    (he : e ≤ e') (hw : w ≤ w') (hi : i ≤ i') (hs : s ≤ s') :
    (runDecision e' w' i' s' fi fw).1 = true := by
  rw [runDecision_fst] at hfail ⊢
  simp only [Bool.or_eq_true, Bool.and_eq_true, decide_eq_true_eq] at hfail ⊢
  rcases hfail with h | ⟨hflag, hpos⟩
  · exact Or.inl (Nat.lt_of_lt_of_le h he)
  · exact Or.inr ⟨hflag, by omega⟩

/-- Witness for C9 at a concrete input: two warnings fail under
`fail-on-warnings`, and so does every pointwise larger combination. -/
theorem fail_monotone_witness :
    (runDecision 0 2 0 0 false true).1 = true ∧ 0 ≤ 1 ∧ 2 ≤ 3 ∧ 0 ≤ 4 ∧ 0 ≤ 5 ∧
      (runDecision 1 3 4 5 false true).1 = true :=
  ⟨by decide, by decide, by decide, by decide, by decide,
    fail_monotone 0 2 0 0 1 3 4 5 false true (by decide)
      (by decide) (by decide) (by decide) (by decide)⟩

/-! ## Format stage -/

/-- C7: in the format stage a style finding is produced exactly for the lines
ending in `.dart`, regardless of the rest of their content; each finding's
file path is the line with the fixed-width `"Changed "` label stripped (its
first `"Changed ".length = 8` characters dropped, which recovers exactly `p`
from `"Changed " ++ p`), and the returned warning count is the number of such
lines. -/
theorem format_style_filter (lines : List String) :
    (formatScan lines).1 = (lines.filter (fun l => jsEndsWith l ".dart")).length ∧
    (formatScan lines).2 =
      (lines.filter (fun l => jsEndsWith l ".dart")).map
        (fun l => jsSubstringFrom l ("Changed ".length)) ∧
    ∀ p : String, jsSubstringFrom ("Changed " ++ p) ("Changed ".length) = p := by
  refine ⟨?_, ?_, ?_⟩
  · induction lines with
    | nil => rfl
    | cons l ls ih =>
      simp only [formatScan, List.filter_cons]
      by_cases h : jsEndsWith l ".dart" <;> simp [h, ih]
  · induction lines with
    | nil => rfl
    | cons l ls ih =>
      simp only [formatScan, List.filter_cons]
      by_cases h : jsEndsWith l ".dart"
      · simp only [if_pos h, List.map_cons, ih]
        rfl
      · simp [h, ih]
  · intro p
    show String.mk (List.drop ("Changed ".length) ("Changed " ++ p).data) = p
    rw [String.data_append]
    rw [show ("Changed ".length) = ("Changed ".data.length) from rfl]
    rw [List.drop_left]

/-- C10: a line ending in `.dart` has its first 8 characters removed
unconditionally — no check that it starts with `"Changed "` — and is counted
as a style warning; for such a line of at most 8 characters the extracted
path is the empty string, and `formatScan` is total, so no exception is
raised. -/
theorem unconditional_substring (l : String) (ls : List String)
    (h : jsEndsWith l ".dart" = true) :
    formatScan (l :: ls) =
      ((formatScan ls).1 + 1, jsSubstringFrom l 8 :: (formatScan ls).2) ∧
    (l.length ≤ 8 → jsSubstringFrom l 8 = "") := by
  constructor
  · simp only [formatScan, if_pos h]
  · intro hlen
    show String.mk (l.data.drop 8) = ""
    rw [List.drop_eq_nil_of_le hlen]

/-- Witness for C10 at the concrete line `"a.dart"`: it is not of the form
`"Changed <path>"`, is 6 characters long, yet is counted with the empty
string as extracted path. -/
theorem unconditional_substring_witness :
    jsEndsWith "a.dart" ".dart" = true ∧
      (formatScan ["a.dart"] =
        ((formatScan []).1 + 1, jsSubstringFrom "a.dart" 8 :: (formatScan []).2) ∧
       ("a.dart".length ≤ 8 → jsSubstringFrom "a.dart" 8 = "")) :=
  ⟨by decide, unconditional_substring "a.dart" [] (by decide)⟩

/-! ## Analysis stage: character and string facts -/

/-- Lower-casing moves an upper-case letter, so it cannot fix it. -/
lemma toLower_ne_self_of_upper {c : Char} (h : c.isUpper = true) : Char.toLower c ≠ c := by
  simp only [Char.isUpper, Bool.and_eq_true, decide_eq_true_eq] at h
  obtain ⟨h1, h2⟩ := h
  have hn1 : 65 ≤ c.toNat := h1
  have hn2 : c.toNat ≤ 90 := h2
  intro heq
  rw [Char.toLower] at heq
  rw [if_pos ⟨hn1, hn2⟩] at heq
  have hv : (c.toNat + 32).isValidChar := Or.inl (by omega)
  rw [Char.ofNat, dif_pos hv] at heq
  have h3 := congrArg Char.toNat heq
  simp [Char.ofNatAux, Char.toNat, UInt32.toNat] at h3

/-- Lower-casing fixes every character that is not an upper-case letter. -/
lemma toLower_eq_self_of_not_upper {c : Char} (h : c.isUpper = false) : Char.toLower c = c := by
  have hnot : ¬ (65 ≤ c.toNat ∧ c.toNat ≤ 90) := by
    intro ⟨a, b⟩
    have hup : c.isUpper = true := by
      simp only [Char.isUpper, Bool.and_eq_true, decide_eq_true_eq]
      exact ⟨a, b⟩
    rw [hup] at h
    simp at h
  rw [Char.toLower]
  exact if_neg hnot

/-- A character list is fixed by lower-casing exactly when it has no
upper-case letter. -/
lemma list_eq_map_toLower_iff (l : List Char) :
    l = l.map Char.toLower ↔ ∀ c ∈ l, c.isUpper = false := by
  induction l with
  | nil => simp
  | cons a l ih =>
    constructor
    · intro heq c hc
      have h2 := List.cons.inj heq
      rcases List.mem_cons.mp hc with rfl | hc2
      · by_contra hb
        have hup : c.isUpper = true := by
          cases hx : c.isUpper
          · exact absurd hx hb
          · rfl
        exact toLower_ne_self_of_upper hup h2.1.symm
      · exact (ih.mp h2.2) c hc2
    · intro hall
      have ha := toLower_eq_self_of_not_upper (hall a (List.mem_cons_self a l))
      have hl := ih.mpr (fun c hc => hall c (List.mem_cons_of_mem a hc))
      rw [List.map_cons, ha, ← hl]

/-- The `lint === lint.toLowerCase()` test holds exactly for identifiers with
no upper-case letter. -/
lemma jsToLowerCase_eq_self_iff (s : String) :
    s = jsToLowerCase s ↔ ∀ c ∈ s.data, c.isUpper = false := by
  constructor
  · intro h
    exact (list_eq_map_toLower_iff s.data).mp (congrArg String.data h)
  · intro h
    have hd := (list_eq_map_toLower_iff s.data).mpr h
    cases s with
    | mk d => exact congrArg String.mk hd

/-- Removing the first occurrence of a leading pattern strips exactly that
pattern. -/
lemma removeFirstOcc_append (p r : List Char) : removeFirstOcc p (p ++ r) = r := by
  cases p with
  | nil =>
    cases r with
    | nil => rfl
    | cons a as =>
      show removeFirstOcc [] (a :: as) = a :: as
      rw [removeFirstOcc]
      simp
  | cons b bs =>
    show removeFirstOcc (b :: bs) ((b :: bs) ++ r) = r
    rw [List.cons_append, removeFirstOcc, ← List.cons_append]
    rw [List.take_left, if_pos rfl, List.drop_left]

/-- `path.replace(workingDirectory, '')` on a path that starts with the
working directory yields the remainder. -/
lemma jsReplaceEmpty_append (wd rest : String) :
    jsReplaceEmpty (wd ++ rest) wd = rest := by
  show String.mk (removeFirstOcc wd.data (wd ++ rest).data) = rest
  rw [String.data_append, removeFirstOcc_append]

/-! ## Analysis stage: claims -/

/-- C2 (code bug): the line `"ERROR|E001"` contains the delimiter but splits
into only 2 fields; the parser does not skip it or default its fields — it
raises the `TypeError` from `lineData[2].toLowerCase()`, which escapes
`analyze` to the top-level handler. -/
theorem malformed_line_throws :
    analyze "/w" "ERROR|E001" =
      .error (.typeError "Cannot read properties of undefined (reading toLowerCase)") :=
  rfl

/-- C3 counterexample: with working directory `"/w"` and the absolute path
`"/w/w/a.dart"` (which lies under `"/w"`), the normalized file path is
`"/w/a.dart"` — it still contains (indeed starts with) the working-directory
prefix, because `String.replace` removes only the first occurrence. -/
theorem filePath_strip_cex :
    (processFields "/w" ["WARNING", "C", "r", "/w/w/a.dart", "1", "2", "3", "m"]).map
        (fun r => r.2.file) = .ok "/w/a.dart" ∧
    strOccurs "/w/a.dart" "/w" = true :=
  ⟨rfl, rfl⟩

/-- C3 (amended): for a well-formed line whose field 3 is `wd ++ rest`, the
finding's file path is exactly `rest` — the leading working-directory prefix
is stripped — and it is free of the working-directory string whenever the
working directory does not occur again in the remainder `rest`. -/
theorem filePath_strip (wd rest f0 f1 f2 f4 f5 f6 f7 : String)
    (h : strOccurs rest wd = false) :
    ∃ ch fnd, processFields wd [f0, f1, f2, wd ++ rest, f4, f5, f6, f7] = .ok (ch, fnd) ∧
      fnd.file = rest ∧ strOccurs fnd.file wd = false := by
  refine ⟨lineChannel [f0, f1, f2, wd ++ rest, f4, f5, f6, f7], _, rfl, ?_, ?_⟩
  · exact jsReplaceEmpty_append wd rest
  · show strOccurs (jsReplaceEmpty (wd ++ rest) wd) wd = false
    rw [jsReplaceEmpty_append]
    exact h

/-- Witness for the amended C3 at a concrete input: `"/w" ++ "/lib/a.dart"`
normalizes to `"/lib/a.dart"`, which does not contain `"/w"`. -/
theorem filePath_strip_witness :
    strOccurs "/lib/a.dart" "/w" = false ∧
      (∃ ch fnd,
        processFields "/w" ["ERROR", "C", "r", "/w" ++ "/lib/a.dart", "1", "2", "3", "m"] =
          .ok (ch, fnd) ∧
        fnd.file = "/lib/a.dart" ∧ strOccurs fnd.file "/w" = false) :=
  ⟨by decide, filePath_strip "/w" "/lib/a.dart" "ERROR" "C" "r" "1" "2" "3" "m" (by decide)⟩

/-- C5: a rule identifier equal to its own lower-cased form (equivalently, one
with no upper-case letter) maps to the lints-catalog URL keyed by the
identifier; an identifier containing an upper-case character maps to the
diagnostics-catalog URL keyed by its lower-cased form; and the finding's
display message is the original message followed by
`" For more details, see "` and that URL. -/
theorem rule_url_selection (wd f0 f1 f2 f3 f4 f5 f6 f7 : String) :
    (f2 = jsToLowerCase f2 ↔ ∀ c ∈ f2.data, c.isUpper = false) ∧
    (f2 = jsToLowerCase f2 →
      ruleUrl f2 = "https://dart-lang.github.io/linter/lints/" ++ f2 ++ ".html") ∧
    ((∃ c ∈ f2.data, c.isUpper = true) →
      ruleUrl f2 = "https://dart.dev/tools/diagnostic-messages#" ++ jsToLowerCase f2) ∧
    ∃ ch fnd, processFields wd [f0, f1, f2, f3, f4, f5, f6, f7] = .ok (ch, fnd) ∧
      fnd.message = f7 ++ " For more details, see " ++ ruleUrl f2 := by
  refine ⟨jsToLowerCase_eq_self_iff f2, ?_, ?_, ?_⟩
  · intro h
    rw [ruleUrl, if_pos h]
  · rintro ⟨c, hc, hup⟩
    have hne : ¬ (f2 = jsToLowerCase f2) := by
      intro heq
      have hall := (jsToLowerCase_eq_self_iff f2).mp heq
      rw [hall c hc] at hup
      simp at hup
    rw [ruleUrl, if_neg hne]
  · exact ⟨_, _, rfl, rfl⟩

/-- Witness for C5 at concrete rule identifiers: `dead_code` takes the
lints-catalog URL, `DEAD_CODE` the diagnostics-catalog URL. -/
theorem rule_url_selection_witness :
    ("dead_code" = jsToLowerCase "dead_code" ∧
      ruleUrl "dead_code" =
        "https://dart-lang.github.io/linter/lints/" ++ "dead_code" ++ ".html") ∧
    ((∃ c ∈ "DEAD_CODE".data, c.isUpper = true) ∧
      ruleUrl "DEAD_CODE" =
        "https://dart.dev/tools/diagnostic-messages#" ++ jsToLowerCase "DEAD_CODE") :=
  ⟨⟨by decide, (rule_url_selection "" "" "" "dead_code" "" "" "" "" "").2.1 (by decide)⟩,
   ⟨⟨'D', by decide, by decide⟩,
     (rule_url_selection "" "" "" "DEAD_CODE" "" "" "" "" "").2.2.1 ⟨'D', by decide, by decide⟩⟩⟩

/-- A line that splits into at least 4 fields is parsed without an exception,
and its channel is the severity classification of its fields. -/
lemma processFields_ok (wd : String) (f : List String) (h4 : 4 ≤ f.length) :
    ∃ fnd, processFields wd f = .ok (lineChannel f, fnd) := by
  match f, h4 with
  | a :: b :: c :: d :: rest, _ => exact ⟨_, rfl⟩

/-- The analyze loop over well-formed lines: each counter ends at the number
of data lines classified to its channel, on top of the accumulator. -/
lemma analyzeLoop_counts (wd : String) (lines : List String)
    (hwf : ∀ l ∈ lines, isDataLine l = true → 8 ≤ (jsSplitChar l '|').length)
    (acc : Counts) :
    analyzeLoop wd lines acc =
      .ok ⟨acc.errorCount + lines.countP isErrorLine,
           acc.warningCount + lines.countP isWarningLine,
           acc.infoCount + lines.countP isInfoLine⟩ := by
  induction lines generalizing acc with
  | nil => simp [analyzeLoop, List.countP_nil]
  | cons l ls ih =>
    have hwf' : ∀ l' ∈ ls, isDataLine l' = true → 8 ≤ (jsSplitChar l' '|').length :=
      fun l' hl' => hwf l' (List.mem_cons_of_mem l hl')
    by_cases hd : jsIncludesChar l '|'
    · have h8 := hwf l (List.mem_cons_self l ls) hd
      obtain ⟨fnd, hpf⟩ := processFields_ok wd (jsSplitChar l '|') (by omega)
      rw [analyzeLoop, if_pos hd, hpf]
      show analyzeLoop wd ls (acc.bump (lineChannel (jsSplitChar l '|'))) = _
      rw [ih hwf']
      rcases hch : lineChannel (jsSplitChar l '|') with _ | _ | _ <;>
        simp [Counts.bump, List.countP_cons, isErrorLine, isWarningLine, isInfoLine,
          Channel.isError, Channel.isWarning, Channel.isNotice, hd, hch] <;>
        omega
    · rw [analyzeLoop, if_neg hd, ih hwf']
      simp [List.countP_cons, isErrorLine, isWarningLine, isInfoLine, hd]

/-- Every data line is classified to exactly one of the three channels, so the
per-channel counts partition the data lines. -/
lemma counts_partition_sum (lines : List String) :
    lines.countP isErrorLine + lines.countP isWarningLine + lines.countP isInfoLine
      = lines.countP isDataLine := by
  induction lines with
  | nil => rfl
  | cons l ls ih =>
    simp only [List.countP_cons]
    by_cases hd : jsIncludesChar l '|'
    · rcases hch : lineChannel (jsSplitChar l '|') with _ | _ | _ <;>
        simp [isErrorLine, isWarningLine, isInfoLine, isDataLine,
          Channel.isError, Channel.isWarning, Channel.isNotice, hd, hch] <;>
        omega
    · simp [isErrorLine, isWarningLine, isInfoLine, isDataLine, hd]
      omega

/-- C6: over well-formed lines, the analyze loop raises no exception and each
delimiter-containing line increments exactly one of the three counters — the
error counter when field 0 is `ERROR`, the warning counter when it is
`WARNING`, the info counter otherwise — so the three counts sum to the number
of data lines, and lines without the delimiter contribute to no counter. -/
theorem analyze_counts_partition (wd : String) (lines : List String)
    (hwf : ∀ l ∈ lines, isDataLine l = true → 8 ≤ (jsSplitChar l '|').length) :
    analyzeLoop wd lines ⟨0, 0, 0⟩ =
      .ok ⟨lines.countP isErrorLine, lines.countP isWarningLine, lines.countP isInfoLine⟩ ∧
    lines.countP isErrorLine + lines.countP isWarningLine + lines.countP isInfoLine
      = lines.countP isDataLine := by
  constructor
  · have h := analyzeLoop_counts wd lines hwf ⟨0, 0, 0⟩
    simpa using h
  · exact counts_partition_sum lines

/-- Witness for C6 on a concrete four-line output: a banner line, one error
line, one warning line and one info line. -/
theorem analyze_counts_partition_witness :
    (∀ l ∈ ["Analyzing lib...",
            "ERROR|E|dead_code|/w/a.dart|1|2|3|m1",
            "WARNING|W|X_CODE|/w/b.dart|4|5|6|m2",
            "INFO|I|r|/w/c.dart|7|8|9|m3"],
        isDataLine l = true → 8 ≤ (jsSplitChar l '|').length) ∧
    (analyzeLoop "/w" ["Analyzing lib...",
            "ERROR|E|dead_code|/w/a.dart|1|2|3|m1",
            "WARNING|W|X_CODE|/w/b.dart|4|5|6|m2",
            "INFO|I|r|/w/c.dart|7|8|9|m3"] ⟨0, 0, 0⟩ =
      .ok ⟨["Analyzing lib...",
            "ERROR|E|dead_code|/w/a.dart|1|2|3|m1",
            "WARNING|W|X_CODE|/w/b.dart|4|5|6|m2",
            "INFO|I|r|/w/c.dart|7|8|9|m3"].countP isErrorLine,
           ["Analyzing lib...",
            "ERROR|E|dead_code|/w/a.dart|1|2|3|m1",
            "WARNING|W|X_CODE|/w/b.dart|4|5|6|m2",
            "INFO|I|r|/w/c.dart|7|8|9|m3"].countP isWarningLine,
           ["Analyzing lib...",
            "ERROR|E|dead_code|/w/a.dart|1|2|3|m1",
            "WARNING|W|X_CODE|/w/b.dart|4|5|6|m2",
            "INFO|I|r|/w/c.dart|7|8|9|m3"].countP isInfoLine⟩ ∧
     ["Analyzing lib...",
            "ERROR|E|dead_code|/w/a.dart|1|2|3|m1",
            "WARNING|W|X_CODE|/w/b.dart|4|5|6|m2",
            "INFO|I|r|/w/c.dart|7|8|9|m3"].countP isErrorLine +
       ["Analyzing lib...",
            "ERROR|E|dead_code|/w/a.dart|1|2|3|m1",
            "WARNING|W|X_CODE|/w/b.dart|4|5|6|m2",
            "INFO|I|r|/w/c.dart|7|8|9|m3"].countP isWarningLine +
       ["Analyzing lib...",
            "ERROR|E|dead_code|/w/a.dart|1|2|3|m1",
            "WARNING|W|X_CODE|/w/b.dart|4|5|6|m2",
            "INFO|I|r|/w/c.dart|7|8|9|m3"].countP isInfoLine =
       ["Analyzing lib...",
            "ERROR|E|dead_code|/w/a.dart|1|2|3|m1",
            "WARNING|W|X_CODE|/w/b.dart|4|5|6|m2",
            "INFO|I|r|/w/c.dart|7|8|9|m3"].countP isDataLine) :=
  ⟨by decide,
   analyze_counts_partition "/w"
     ["Analyzing lib...",
      "ERROR|E|dead_code|/w/a.dart|1|2|3|m1",
      "WARNING|W|X_CODE|/w/b.dart|4|5|6|m2",
      "INFO|I|r|/w/c.dart|7|8|9|m3"] (by decide)⟩

end AnalyzeDart
